import Mathlib

/-!
Shallow embedding of the flash-loan arbitrage coordinator contract
(`contracts/example/src/lib.rs`, contract `PwndArbitrage`) of the
stellar-workshop repository, together with proofs about its entry points
`pwnd_arb` (initiate), `exec_op` (flash-loan callback) and `pwnd_exec`
(standalone fail-soft batch executor).

Modelling conventions:
- Soroban `Address` and `Symbol` are opaque identities; we model them as
  `Nat` and `String`.  `Val` (opaque host value) is modelled as `Nat`.
- `i128` amounts are modelled as unbounded `Int`; none of the verified
  properties depends on 128-bit overflow behaviour.
- The contract's temporary storage has exactly five keys written by
  `pwnd_arb` ("INVOCS", "LNASSET", "LNAMT", "MINPROF", "CALLER"); we model
  it as a record with one `Option` slot per key.
- Token balances (`token::Client::balance` / `transfer`) are modelled as a
  map from (token address, holder address) to `Int`.
- External contract calls made through `try_invoke_contract` /
  `invoke_contract` are modelled by an oracle
  `Invocation → Balances → Except Val (Val × Balances)`: a sub-invocation
  may read and update token balances and either return a value or fail
  with an error value (a failed `try_invoke_contract` leaves the balances
  as they were, since the host rolls back the failed sub-call; Soroban's
  reentrancy prohibition means an external call cannot touch this
  contract's own temporary storage).
- `require_auth` is modelled through an authorization environment
  `auth : Address → Bool`; a failed `require_auth` aborts the call, which
  we surface as an `Unauthorized` error outcome.
- The Blend pool's `flash_loan` external call made by `pwnd_arb` is
  modelled as an arbitrary ledger transformer `flashLoanCall`, restricted
  to the executions in which the pool call returns.
-/

namespace StellarWorkshop

/-- Contract / account identity (Soroban `Address`). -/
abbrev Address := Nat

/-- Entry-point name (Soroban `Symbol`). -/
abbrev Symbol := String

/-- Opaque host value (Soroban `Val`). -/
abbrev Val := Nat

/-- One generic sub-invocation as stored by `pwnd_arb`:
the Rust tuple `(Address, Symbol, Vec<Val>)`. -/
structure Invocation where
  target : Address
  method : Symbol
  args : List Val
deriving DecidableEq, Repr

/-- One sub-invocation of the fail-soft batch executor `pwnd_exec`:
the Rust tuple `(Address, Symbol, Vec<Val>, bool)`. -/
structure InvocationF where
  target : Address
  method : Symbol
  args : List Val
  can_fail : Bool
deriving DecidableEq, Repr

/-- Forget the tolerance flag of a fail-soft batch item. -/
def InvocationF.toInvocation (i : InvocationF) : Invocation :=
  ⟨i.target, i.method, i.args⟩

/-- Error type of the contract, taken from the variants `lib.rs` actually
uses (`SoroswapError::...`); `Unauthorized` stands for the abort of a
failed `require_auth`. -/
inductive SoroswapError where
  | InsufficientProfit
  | InvalidInvocations
  | SwapFailed
  | RepaymentFailed
  | Unauthorized
  | InvalidParams
deriving DecidableEq, Repr

/-- Token balances: `balance tok h` is the balance of holder `h` in token
contract `tok`. -/
abbrev Balances := Address → Address → Int

/-- Point update of one holder's balance in one token. -/
def setBal (b : Balances) (tok h : Address) (v : Int) : Balances :=
  fun t x => if t = tok ∧ x = h then v else b t x

/-- Semantics of `token::Client::transfer(src, dst, amt)`:
debit `src`, credit `dst`. -/
def transferBal (b : Balances) (tok src dst : Address) (amt : Int) : Balances :=
  let b1 := setBal b tok src (b tok src - amt)
  setBal b1 tok dst (b1 tok dst + amt)

/-- The contract's temporary storage: one slot per key written by
`pwnd_arb` ("INVOCS", "LNASSET", "LNAMT", "MINPROF", "CALLER"). -/
structure TempStorage where
  invocs : Option (List Invocation)
  lnasset : Option Address
  lnamt : Option Int
  minprof : Option Int
  caller : Option Address
deriving DecidableEq, Repr

/-- The empty temporary storage (no request stored). -/
def TempStorage.empty : TempStorage :=
  ⟨none, none, none, none, none⟩

/-- Ledger state visible to the contract: its temporary storage and the
token balances. -/
structure Ledger where
  temp : TempStorage
  balance : Balances

/-- Execution environment: the authorization oracle backing
`require_auth` and the address of the current contract instance
(`e.current_contract_address()`). -/
structure ContractEnv where
  auth : Address → Bool
  contractAddress : Address

/-- Behaviour of `try_invoke_contract` / `invoke_contract` on one
sub-invocation: returns a value and updated balances, or fails with an
error value (the failed sub-call's balance effects are rolled back by the
host). -/
abbrev InvokeOracle := Invocation → Balances → Except Val (Val × Balances)

/-- The five temporary-storage writes of `pwnd_arb` (keys "INVOCS",
"LNASSET", "LNAMT", "MINPROF", "CALLER"); each `set` overwrites its own
slot, so the sequence is this record update. -/
def storeRequest (invs : List Invocation) (loan_asset : Address)
    (loan_amount : Int) (min_profit : Int) (caller : Address)
    (l : Ledger) : Ledger :=
  { l with temp := ⟨some invs, some loan_asset, some loan_amount,
                    some min_profit, some caller⟩ }

/-- The four temporary-storage reads at the top of `exec_op` (keys
"INVOCS", "LNASSET", "LNAMT", "CALLER"); each `get` that finds its slot
empty makes `exec_op` return `InvalidParams`, which here is the `none`
case. -/
def readRequest (l : Ledger) :
    Option (List Invocation × Address × Int × Address) :=
  match l.temp.invocs, l.temp.lnasset, l.temp.lnamt, l.temp.caller with
  | some invs, some a, some amt, some c => some (invs, a, amt, c)
  | _, _, _, _ => none

/-- Result of running the stored batch fail-fast inside `exec_op`:
whether every item succeeded, the balances after the executed prefix, and
the list of items actually executed, in execution order. -/
structure BatchRun where
  ok : Bool
  bal : Balances
  executed : List Invocation

/-- The fail-fast loop of `exec_op`: iterate the stored invocations in
order, calling each through `try_invoke_contract`; the first failure
stops the loop (`return Err(SwapFailed)` in the source, surfaced by the
caller of this function). -/
def runFailFast (oracle : InvokeOracle) :
    List Invocation → Balances → BatchRun
  | [], bal => ⟨true, bal, []⟩
  | item :: rest, bal =>
    match oracle item bal with
    | .ok (_, bal') =>
      let r := runFailFast oracle rest bal'
      ⟨r.ok, r.bal, item :: r.executed⟩
    | .error _ => ⟨false, bal, [item]⟩

/-- Outcome of one `exec_op` call: its `Result<(), SoroswapError>`, the
ledger afterwards, and the sub-invocations it executed, in order. -/
structure ExecOutcome where
  result : Except SoroswapError Unit
  ledger : Ledger
  executed : List Invocation

/-- The flash-loan callback `exec_op(caller, token, amount, fee)`:
read the four stored request slots (missing slot → `InvalidParams`),
require `(token, amount, caller)` to equal the stored
`(loan_asset, loan_amount, caller)` (mismatch → `InvalidParams`), run the
stored invocations fail-fast (failure → `SwapFailed`), then require the
contract's balance of `token` to cover `amount + fee`
(shortfall → `RepaymentFailed`); on success return `Ok(())` without any
transfer of its own. -/
def exec_op (env : ContractEnv) (oracle : InvokeOracle)
    (caller token : Address) (amount fee : Int) (l : Ledger) :
    ExecOutcome :=
  match readRequest l with
  | none => ⟨.error .InvalidParams, l, []⟩
  | some (invocations, loan_asset, loan_amount, stored_caller) =>
    if token ≠ loan_asset ∨ amount ≠ loan_amount ∨ caller ≠ stored_caller then
      ⟨.error .InvalidParams, l, []⟩
    else
      let r := runFailFast oracle invocations l.balance
      if r.ok then
        let repayment_amount := amount + fee
        let current_balance := r.bal token env.contractAddress
        if current_balance < repayment_amount then
          ⟨.error .RepaymentFailed, { l with balance := r.bal }, r.executed⟩
        else
          ⟨.ok (), { l with balance := r.bal }, r.executed⟩
      else
        ⟨.error .SwapFailed, { l with balance := r.bal }, r.executed⟩

/-- Outcome of one `pwnd_arb` call: its `Result<i128, SoroswapError>`,
the ledger afterwards, the ledger state handed to the Blend pool's
`flash_loan` (or `none` when no external pool call was made), and the
token transfers `pwnd_arb` itself performed, as
(token, from, to, amount) tuples. -/
structure ArbOutcome where
  result : Except SoroswapError Int
  ledger : Ledger
  poolArg : Option Ledger
  transfers : List (Address × Address × Address × Int)

/-- The arbitrage entry point
`pwnd_arb(caller, blend_pool, loan_asset, loan_amount, invocations,
min_profit)`: require the caller's authorization, validate the batch size
(1..=10) and the amounts (`loan_amount <= 0 || min_profit < 0` is
rejected), store the five request slots, snapshot the initial balance,
call the pool's `flash_loan` (here the arbitrary returning execution
`flashLoanCall`), snapshot the final balance, reject when
`net_profit < min_profit`, transfer the profit to the caller when
positive, and return `net_profit`. -/
def pwnd_arb (env : ContractEnv) (caller _blend_pool loan_asset : Address)
    (loan_amount : Int) (invocations : List Invocation) (min_profit : Int)
    (flashLoanCall : Ledger → Ledger) (l : Ledger) : ArbOutcome :=
  if env.auth caller then
    if invocations.length = 0 ∨ 10 < invocations.length then
      ⟨.error .InvalidInvocations, l, none, []⟩
    else if loan_amount ≤ 0 ∨ min_profit < 0 then
      ⟨.error .InvalidParams, l, none, []⟩
    else
      let l1 := storeRequest invocations loan_asset loan_amount min_profit
                  caller l
      let initial_balance := l1.balance loan_asset env.contractAddress
      let l2 := flashLoanCall l1
      let final_balance := l2.balance loan_asset env.contractAddress
      let net_profit := final_balance - initial_balance
      if net_profit < min_profit then
        ⟨.error .InsufficientProfit, l2, some l1, []⟩
      else if 0 < net_profit then
        ⟨.ok net_profit,
         { l2 with balance := transferBal l2.balance loan_asset
                     env.contractAddress caller net_profit },
         some l1,
         [(loan_asset, env.contractAddress, caller, net_profit)]⟩
      else
        ⟨.ok net_profit, l2, some l1, []⟩
  else
    ⟨.error .Unauthorized, l, none, []⟩

/-- The net profit `pwnd_arb` computes for a given returning pool
execution: balance of the loan asset at the contract after the pool call
minus the balance just before it. -/
def netProfitOf (env : ContractEnv) (flashLoanCall : Ledger → Ledger)
    (invocations : List Invocation) (loan_asset : Address)
    (loan_amount min_profit : Int) (caller : Address) (l : Ledger) : Int :=
  (flashLoanCall (storeRequest invocations loan_asset loan_amount
      min_profit caller l)).balance loan_asset env.contractAddress
    - (storeRequest invocations loan_asset loan_amount min_profit caller
        l).balance loan_asset env.contractAddress

/-- The fail-soft loop of `pwnd_exec`, building the result vector with
`push_back`: a tolerated failure (`can_fail = true`) records the error
value at the item's position and continues; an untolerated failure aborts
the whole call (`invoke_contract` panics), modelled as `none`. -/
def runSoft (oracle : InvokeOracle) :
    List InvocationF → Balances → List Val → Option (List Val × Balances)
  | [], bal, results => some (results, bal)
  | item :: rest, bal, results =>
    if item.can_fail then
      match oracle item.toInvocation bal with
      | .ok (v, bal') => runSoft oracle rest bal' (results ++ [v])
      | .error ev => runSoft oracle rest bal (results ++ [ev])
    else
      match oracle item.toInvocation bal with
      | .ok (v, bal') => runSoft oracle rest bal' (results ++ [v])
      | .error _ => none

/-- The standalone fail-soft batch executor
`pwnd_exec(caller, invocations)`: require the caller's authorization,
then run the items in declaration order under the per-item tolerance
flag (the `extend_ttl` bookkeeping call has no bearing on the result). -/
def pwnd_exec (env : ContractEnv) (oracle : InvokeOracle)
    (caller : Address) (invocations : List InvocationF) (l : Ledger) :
    Option (List Val × Balances) :=
  if env.auth caller then
    runSoft oracle invocations l.balance []
  else
    none

/-- Reference run of a fail-soft batch, written from the spec's words for
comparison with `runSoft`: position by position, a successful item
contributes its raw return value and a failing item its captured error
value, the state threading through sequentially. -/
def softSpecRun (oracle : InvokeOracle) :
    List InvocationF → Balances → List Val × Balances
  | [], bal => ([], bal)
  | item :: rest, bal =>
    match oracle item.toInvocation bal with
    | .ok (v, bal') =>
      let r := softSpecRun oracle rest bal'
      (v :: r.1, r.2)
    | .error ev =>
      let r := softSpecRun oracle rest bal
      (ev :: r.1, r.2)

/-! ### Concrete instances used to exercise the definitions -/

/-- Authorization environment in which every address has signed. -/
def allowAll : Address → Bool := fun _ => true

/-- Concrete environment: everyone authorized, contract instance lives at
address 100. -/
def cEnv : ContractEnv := ⟨allowAll, 100⟩

/-- Oracle under which every sub-invocation succeeds, returns 0 and
leaves balances unchanged. -/
def okOracle : InvokeOracle := fun _ bal => .ok (0, bal)

/-- Oracle under which exactly the sub-invocations targeting contract 9
fail (with error value 5) and every other one succeeds. -/
def failAt9 : InvokeOracle := fun i bal =>
  if i.target = 9 then .error 5 else .ok (0, bal)

/-- Balances in which the contract (address 100) holds 10 units of token
3 and every other balance is 0. -/
def baseBal : Balances := fun t h => if t = 3 ∧ h = 100 then 10 else 0

/-- Ledger with no stored request and the `baseBal` balances. -/
def baseLedger : Ledger := ⟨TempStorage.empty, baseBal⟩

/-- A sub-invocation of contract 7 (succeeds under both oracles). -/
def cInv : Invocation := ⟨7, "swap", []⟩

/-- A sub-invocation of contract 9 (fails under `failAt9`). -/
def badInv : Invocation := ⟨9, "swap", []⟩

/-- A sub-invocation of contract 8 (succeeds under both oracles). -/
def tailInv : Invocation := ⟨8, "swap", []⟩

/-- Ledger holding the request (batch `[cInv]`, asset 3, amount 10,
min profit 0, caller 1), as stored by `pwnd_arb`. -/
def armedLedger : Ledger := storeRequest [cInv] 3 10 0 1 baseLedger

/-- Ledger holding a request whose three-item batch fails at its second
item under `failAt9`. -/
def armedLedger3 : Ledger :=
  storeRequest [cInv, badInv, tailInv] 3 10 0 1 baseLedger

/-- A returning pool execution that credits 50 units of token 3 to the
contract (address 100) and touches nothing else. -/
def gainFlash : Ledger → Ledger := fun l =>
  { l with balance := setBal l.balance 3 100 (l.balance 3 100 + 50) }

/-- Tolerant fail-soft batch item targeting contract 7 (succeeds under
`failAt9`). -/
def softA : InvocationF := ⟨7, "a", [], true⟩

/-- Tolerant fail-soft batch item targeting contract 9 (fails under
`failAt9`). -/
def softB : InvocationF := ⟨9, "b", [], true⟩

/-- Tolerant fail-soft batch item targeting contract 8 (succeeds under
`failAt9`). -/
def softC : InvocationF := ⟨8, "c", [], true⟩

/-- Intolerant fail-soft batch item targeting contract 7 (succeeds under
`failAt9`), for exercising mixed batches. -/
def softD : InvocationF := ⟨7, "d", [], false⟩

/-! ### Helper lemmas about the fail-fast batch runner -/

/-- Step equation of the fail-fast runner at a succeeding head item. -/
theorem runFailFast_cons_ok (oracle : InvokeOracle) {item : Invocation}
    {bal bal' : Balances} {v : Val} (rest : List Invocation)
    (ho : oracle item bal = .ok (v, bal')) :
    runFailFast oracle (item :: rest) bal =
      ⟨(runFailFast oracle rest bal').ok, (runFailFast oracle rest bal').bal,
       item :: (runFailFast oracle rest bal').executed⟩ := by
  simp only [runFailFast]
  rw [ho]

/-- Step equation of the fail-fast runner at a failing head item. -/
theorem runFailFast_cons_error (oracle : InvokeOracle) {item : Invocation}
    {bal : Balances} {ev : Val} (rest : List Invocation)
    (ho : oracle item bal = .error ev) :
    runFailFast oracle (item :: rest) bal = ⟨false, bal, [item]⟩ := by
  simp only [runFailFast]
  rw [ho]

/-- A fully successful fail-fast run executes exactly the whole batch. -/
theorem runFailFast_ok_executed (oracle : InvokeOracle) :
    ∀ (xs : List Invocation) (bal : Balances),
      (runFailFast oracle xs bal).ok = true →
      (runFailFast oracle xs bal).executed = xs := by
  intro xs
  induction xs with
  | nil => intro bal _; rfl
  | cons item rest ih =>
    intro bal h
    cases ho : oracle item bal with
    | ok p =>
      obtain ⟨v, bal'⟩ := p
      rw [runFailFast_cons_ok oracle rest ho] at h ⊢
      exact congrArg (item :: ·) (ih bal' h)
    | error e =>
      rw [runFailFast_cons_error oracle rest ho] at h
      exact absurd h (by simp)

/-- A fail-fast run of `xs ++ ys` whose `xs` prefix fully succeeds
continues into `ys` from the prefix's final balances, executing `xs`
followed by whatever the `ys` run executes. -/
theorem runFailFast_append (oracle : InvokeOracle) :
    ∀ (xs ys : List Invocation) (bal : Balances),
      (runFailFast oracle xs bal).ok = true →
      runFailFast oracle (xs ++ ys) bal =
        ⟨(runFailFast oracle ys (runFailFast oracle xs bal).bal).ok,
         (runFailFast oracle ys (runFailFast oracle xs bal).bal).bal,
         xs ++ (runFailFast oracle ys (runFailFast oracle xs bal).bal).executed⟩ := by
  intro xs
  induction xs with
  | nil => intro ys bal _; rfl
  | cons item rest ih =>
    intro ys bal h
    cases ho : oracle item bal with
    | ok p =>
      obtain ⟨v, bal'⟩ := p
      rw [runFailFast_cons_ok oracle rest ho] at h
      rw [List.cons_append, runFailFast_cons_ok oracle (rest ++ ys) ho,
        runFailFast_cons_ok oracle rest ho, ih ys bal' h]
      rfl
    | error e =>
      rw [runFailFast_cons_error oracle rest ho] at h
      exact absurd h (by simp)

/-- Unfolding of `exec_op` when the stored request is present and matches
the callback parameters exactly. -/
theorem exec_op_matched (env : ContractEnv) (oracle : InvokeOracle)
    (caller token : Address) (amount fee : Int) (l : Ledger)
    (invs : List Invocation)
    (hreq : readRequest l = some (invs, token, amount, caller)) :
    exec_op env oracle caller token amount fee l =
      (let r := runFailFast oracle invs l.balance
       if r.ok then
         if r.bal token env.contractAddress < amount + fee then
           ⟨.error .RepaymentFailed, { l with balance := r.bal }, r.executed⟩
         else
           ⟨.ok (), { l with balance := r.bal }, r.executed⟩
       else
         ⟨.error .SwapFailed, { l with balance := r.bal }, r.executed⟩) := by
  simp only [exec_op, hreq]
  rw [if_neg (by simp)]

/-- The ledger's temporary storage is untouched by `exec_op`, whatever
branch it takes: no slot is deleted or overwritten. -/
theorem exec_op_temp_invariant (env : ContractEnv) (oracle : InvokeOracle)
    (caller token : Address) (amount fee : Int) (l : Ledger) :
    (exec_op env oracle caller token amount fee l).ledger.temp = l.temp := by
  unfold exec_op
  split
  · rfl
  · split
    · rfl
    · dsimp only
      split
      · split <;> rfl
      · rfl

/-- Reading the stored request only looks at the temporary storage. -/
theorem readRequest_eq_of_temp {l1 l2 : Ledger} (h : l1.temp = l2.temp) :
    readRequest l1 = readRequest l2 := by
  unfold readRequest
  rw [h]

/-! ### Claim theorems about `exec_op` -/

/-- C2: when the stored request matches the callback parameters and every
sub-invocation of the batch succeeds, `exec_op` rejects with the
insufficient-repayment error (`RepaymentFailed`) if and only if the
contract's post-batch balance of the loaned asset is strictly below
`amount + fee`; when the balance covers `amount + fee` it returns success
and performs no repayment transfer of its own (the final balances are
exactly the post-batch balances). -/
theorem exec_op_solvency_check (env : ContractEnv) (oracle : InvokeOracle)
    (caller token : Address) (amount fee : Int) (l : Ledger)
    (invs : List Invocation)
    (hreq : readRequest l = some (invs, token, amount, caller))
    (hbatch : (runFailFast oracle invs l.balance).ok = true) :
    ((exec_op env oracle caller token amount fee l).result
        = .error SoroswapError.RepaymentFailed
      ↔ (runFailFast oracle invs l.balance).bal token env.contractAddress
          < amount + fee)
    ∧ (amount + fee
         ≤ (runFailFast oracle invs l.balance).bal token env.contractAddress →
        (exec_op env oracle caller token amount fee l).result = .ok ()
        ∧ (exec_op env oracle caller token amount fee l).ledger.balance
            = (runFailFast oracle invs l.balance).bal) := by
  have hx := exec_op_matched env oracle caller token amount fee l invs hreq
  by_cases hb : (runFailFast oracle invs l.balance).bal token
      env.contractAddress < amount + fee
  · exact ⟨by simp [hx, hbatch, hb], fun hle => absurd hb (by omega)⟩
  · exact ⟨by simp [hx, hbatch, hb],
      fun _ => ⟨by simp [hx, hbatch, hb], by simp [hx, hbatch, hb]⟩⟩

/-- C3: `exec_op` rejects with `InvalidParams` when no stored request is
present; with a request present it rejects with `InvalidParams`, before
executing any sub-invocation, as soon as one of `(token, amount, caller)`
differs from the stored `(loan_asset, loan_amount, caller)`; and the
request read back by the callback is exactly the one written by
`pwnd_arb`'s storage phase. -/
theorem exec_op_request_validation (env : ContractEnv)
    (oracle : InvokeOracle) (caller token : Address) (amount fee : Int)
    (l l0 : Ledger) (invs : List Invocation) (asset : Address) (amt : Int)
    (clr : Address) (min_profit : Int) :
    (readRequest l = none →
      exec_op env oracle caller token amount fee l
        = ⟨.error SoroswapError.InvalidParams, l, []⟩)
    ∧ (readRequest l = some (invs, asset, amt, clr) →
        (token ≠ asset ∨ amount ≠ amt ∨ caller ≠ clr) →
        exec_op env oracle caller token amount fee l
          = ⟨.error SoroswapError.InvalidParams, l, []⟩)
    ∧ readRequest (storeRequest invs asset amt min_profit clr l0)
        = some (invs, asset, amt, clr) := by
  refine ⟨fun h => by simp [exec_op, h], fun h hm => ?_, rfl⟩
  simp only [exec_op, h]
  rw [if_pos hm]

/-- C4: inside `exec_op`, the stored invocations run sequentially in list
order; when a prefix `pre` fully succeeds and the next item `f` fails,
the whole run stops at `f`: exactly `pre ++ [f]` is executed, nothing
after `f` runs, and `exec_op` rejects with `SwapFailed`. -/
theorem exec_op_fail_fast_order (env : ContractEnv) (oracle : InvokeOracle)
    (caller token : Address) (amount fee : Int) (l : Ledger)
    (pre post : List Invocation) (f : Invocation) (ev : Val)
    (hreq : readRequest l = some (pre ++ f :: post, token, amount, caller))
    (hpre : (runFailFast oracle pre l.balance).ok = true)
    (hf : oracle f ((runFailFast oracle pre l.balance).bal) = .error ev) :
    runFailFast oracle (pre ++ f :: post) l.balance
      = ⟨false, (runFailFast oracle pre l.balance).bal, pre ++ [f]⟩
    ∧ (exec_op env oracle caller token amount fee l).result
        = .error SoroswapError.SwapFailed
    ∧ (exec_op env oracle caller token amount fee l).executed
        = pre ++ [f] := by
  have hrun : runFailFast oracle (pre ++ f :: post) l.balance
      = ⟨false, (runFailFast oracle pre l.balance).bal, pre ++ [f]⟩ := by
    rw [runFailFast_append oracle pre (f :: post) l.balance hpre,
      runFailFast_cons_error oracle post hf]
  have hx := exec_op_matched env oracle caller token amount fee l
    (pre ++ f :: post) hreq
  exact ⟨hrun, by simp [hx, hrun], by simp [hx, hrun]⟩

/-- C9: `exec_op` performs no authorization check: its outcome is
independent of the authorization environment, so any invoker that
reproduces matching `(caller, token, amount, fee)` values against the
stored request drives it to success whatever the authorization state —
witnessed concretely by a success under an arbitrary `auth`. -/
theorem exec_op_no_auth_check (ca : Address) (a1 a2 : Address → Bool)
    (oracle : InvokeOracle) (caller token : Address) (amount fee : Int)
    (l : Ledger) :
    exec_op ⟨a1, ca⟩ oracle caller token amount fee l
      = exec_op ⟨a2, ca⟩ oracle caller token amount fee l
    ∧ ∀ auth : Address → Bool,
        (exec_op ⟨auth, 100⟩ okOracle 1 3 10 0 armedLedger).result
          = .ok () :=
  ⟨rfl, fun _ => rfl⟩

/-- C10: a successful `exec_op` leaves all five transient-storage slots
of the stored request untouched: the temporary storage after the call is
the temporary storage before it. -/
theorem exec_op_preserves_request (env : ContractEnv)
    (oracle : InvokeOracle) (caller token : Address) (amount fee : Int)
    (l : Ledger)
    (_hok : (exec_op env oracle caller token amount fee l).result = .ok ()) :
    (exec_op env oracle caller token amount fee l).ledger.temp = l.temp :=
  exec_op_temp_invariant env oracle caller token amount fee l

/-- Witness for C10 at a concrete successful callback. -/
theorem exec_op_preserves_request_witness :
    (exec_op cEnv okOracle 1 3 10 0 armedLedger).ledger.temp
      = armedLedger.temp :=
  exec_op_preserves_request cEnv okOracle 1 3 10 0 armedLedger rfl

/-- C8 counterexample: a concrete request (asset 3, amount 10, caller 1)
is consumed by a successful `exec_op`, and a second `exec_op` with the
same parameters against the resulting ledger succeeds again instead of
being rejected: consumption does not disarm the request. -/
theorem exec_op_replay_cex :
    (exec_op cEnv okOracle 1 3 10 0 armedLedger).result = .ok ()
    ∧ (exec_op cEnv okOracle 1 3 10 0
        ((exec_op cEnv okOracle 1 3 10 0 armedLedger).ledger)).result
      = .ok () :=
  ⟨rfl, rfl⟩

/-- C8 (amended): a successful `exec_op` does not consume the stored
request: the request read back afterwards is the same one, and a second
`exec_op` with the same `(caller, token, amount, fee)` within the same
transient-storage lifetime is not rejected for a missing or mismatched
request (it may well succeed again). -/
theorem exec_op_request_not_consumed (env : ContractEnv)
    (oracle : InvokeOracle) (caller token : Address) (amount fee : Int)
    (l : Ledger)
    (hok : (exec_op env oracle caller token amount fee l).result = .ok ()) :
    readRequest ((exec_op env oracle caller token amount fee l).ledger)
      = readRequest l
    ∧ (exec_op env oracle caller token amount fee
        ((exec_op env oracle caller token amount fee l).ledger)).result
      ≠ .error SoroswapError.InvalidParams := by
  have htemp := exec_op_temp_invariant env oracle caller token amount fee l
  have hrr := readRequest_eq_of_temp htemp
  refine ⟨hrr, ?_⟩
  have hm : ∃ invs, readRequest l = some (invs, token, amount, caller) := by
    rcases h : readRequest l with _ | ⟨invs, a, amt, c⟩
    · exfalso
      simp [exec_op, h] at hok
    · by_cases hne : token ≠ a ∨ amount ≠ amt ∨ caller ≠ c
      · exfalso
        simp only [exec_op, h] at hok
        rw [if_pos hne] at hok
        simp at hok
      · push_neg at hne
        obtain ⟨h1, h2, h3⟩ := hne
        exact ⟨invs, by simp [h, h1, h2, h3]⟩
  obtain ⟨invs, hinvs⟩ := hm
  have hreq2 : readRequest ((exec_op env oracle caller token amount fee
      l).ledger) = some (invs, token, amount, caller) := hrr.trans hinvs
  rw [exec_op_matched env oracle caller token amount fee _ invs hreq2]
  dsimp only
  split
  · split <;> simp
  · simp

/-- Witness for C8's amended theorem at a concrete successful callback. -/
theorem exec_op_request_not_consumed_witness :
    readRequest ((exec_op cEnv okOracle 1 3 10 0 armedLedger).ledger)
      = readRequest armedLedger
    ∧ (exec_op cEnv okOracle 1 3 10 0
        ((exec_op cEnv okOracle 1 3 10 0 armedLedger).ledger)).result
      ≠ .error SoroswapError.InvalidParams :=
  exec_op_request_not_consumed cEnv okOracle 1 3 10 0 armedLedger rfl

/-! ### Claim theorems about `pwnd_arb` -/

/-- Unfolding of `pwnd_arb` once authorization and all input validation
have passed: the request is stored, the pool is called on the stored
ledger, and the outcome is decided by the net profit. -/
theorem pwnd_arb_valid (env : ContractEnv)
    (caller blend_pool loan_asset : Address) (loan_amount : Int)
    (invocations : List Invocation) (min_profit : Int)
    (flashLoanCall : Ledger → Ledger) (l : Ledger)
    (hauth : env.auth caller = true) (hlen1 : invocations.length ≠ 0)
    (hlen2 : ¬ 10 < invocations.length) (hamt : ¬ loan_amount ≤ 0)
    (hmp : ¬ min_profit < 0) :
    pwnd_arb env caller blend_pool loan_asset loan_amount invocations
        min_profit flashLoanCall l =
      (let l1 := storeRequest invocations loan_asset loan_amount
                   min_profit caller l
       let np := netProfitOf env flashLoanCall invocations loan_asset
                   loan_amount min_profit caller l
       if np < min_profit then
         ⟨.error .InsufficientProfit, flashLoanCall l1, some l1, []⟩
       else if 0 < np then
         ⟨.ok np,
          { flashLoanCall l1 with
              balance := transferBal (flashLoanCall l1).balance loan_asset
                env.contractAddress caller np },
          some l1,
          [(loan_asset, env.contractAddress, caller, np)]⟩
       else
         ⟨.ok np, flashLoanCall l1, some l1, []⟩) := by
  simp only [pwnd_arb, hauth, if_true]
  rw [if_neg (not_or.mpr ⟨hlen1, hlen2⟩), if_neg (not_or.mpr ⟨hamt, hmp⟩)]
  rfl

/-- C1: in every `pwnd_arb` execution that reaches the lending-pool call
and returns from it, the net profit is the final minus the initial
balance of the loan asset at the contract's own address; the call rejects
with `InsufficientProfit` exactly when that net profit is below
`min_profit`, transfers exactly the net profit of the loan asset from the
contract to the caller when it is positive, and returns the net profit on
success. -/
theorem pwnd_arb_profit_accounting (env : ContractEnv)
    (caller blend_pool loan_asset : Address) (loan_amount : Int)
    (invocations : List Invocation) (min_profit : Int)
    (flashLoanCall : Ledger → Ledger) (l : Ledger)
    (hauth : env.auth caller = true) (hlen1 : 1 ≤ invocations.length)
    (hlen2 : invocations.length ≤ 10) (hamt : 0 < loan_amount)
    (hmp : 0 ≤ min_profit) :
    (netProfitOf env flashLoanCall invocations loan_asset loan_amount
        min_profit caller l < min_profit →
      pwnd_arb env caller blend_pool loan_asset loan_amount invocations
          min_profit flashLoanCall l
        = ⟨.error .InsufficientProfit,
           flashLoanCall (storeRequest invocations loan_asset loan_amount
             min_profit caller l),
           some (storeRequest invocations loan_asset loan_amount
             min_profit caller l), []⟩)
    ∧ (min_profit ≤ netProfitOf env flashLoanCall invocations loan_asset
        loan_amount min_profit caller l →
        (pwnd_arb env caller blend_pool loan_asset loan_amount invocations
            min_profit flashLoanCall l).result
          = .ok (netProfitOf env flashLoanCall invocations loan_asset
              loan_amount min_profit caller l)
        ∧ (0 < netProfitOf env flashLoanCall invocations loan_asset
            loan_amount min_profit caller l →
            (pwnd_arb env caller blend_pool loan_asset loan_amount
                invocations min_profit flashLoanCall l).transfers
              = [(loan_asset, env.contractAddress, caller,
                  netProfitOf env flashLoanCall invocations loan_asset
                    loan_amount min_profit caller l)])
        ∧ (netProfitOf env flashLoanCall invocations loan_asset
            loan_amount min_profit caller l ≤ 0 →
            (pwnd_arb env caller blend_pool loan_asset loan_amount
                invocations min_profit flashLoanCall l).transfers
              = [])) := by
  have hx := pwnd_arb_valid env caller blend_pool loan_asset loan_amount
    invocations min_profit flashLoanCall l hauth (by omega) (by omega)
    (by omega) (by omega)
  by_cases hp : netProfitOf env flashLoanCall invocations loan_asset
      loan_amount min_profit caller l < min_profit
  · exact ⟨fun _ => by simp [hx, hp], fun hle => absurd hp (by omega)⟩
  · refine ⟨fun hlt => absurd hlt hp, fun _ => ?_⟩
    by_cases hpos : 0 < netProfitOf env flashLoanCall invocations
        loan_asset loan_amount min_profit caller l
    · exact ⟨by simp [hx, hp, hpos],
        fun _ => by simp [hx, hp, hpos],
        fun hle => absurd hpos (by omega)⟩
    · exact ⟨by simp [hx, hp, hpos],
        fun hgt => absurd hgt hpos,
        fun _ => by simp [hx, hp, hpos]⟩

/-- C6: with the caller authorized, `pwnd_arb` rejects an empty or
oversized batch with `InvalidInvocations` and (with a well-sized batch)
negative amounts with `InvalidParams`; in both cases the ledger is
untouched (no request slot written) and no external pool call or transfer
is made. -/
theorem pwnd_arb_input_validation (env : ContractEnv)
    (caller blend_pool loan_asset : Address) (loan_amount : Int)
    (invocations : List Invocation) (min_profit : Int)
    (flashLoanCall : Ledger → Ledger) (l : Ledger)
    (hauth : env.auth caller = true) :
    ((invocations.length = 0 ∨ 10 < invocations.length) →
      pwnd_arb env caller blend_pool loan_asset loan_amount invocations
          min_profit flashLoanCall l
        = ⟨.error .InvalidInvocations, l, none, []⟩)
    ∧ (1 ≤ invocations.length → invocations.length ≤ 10 →
        (loan_amount < 0 ∨ min_profit < 0) →
        pwnd_arb env caller blend_pool loan_asset loan_amount invocations
            min_profit flashLoanCall l
          = ⟨.error .InvalidParams, l, none, []⟩) := by
  constructor
  · intro h
    simp only [pwnd_arb, hauth, if_true]
    rw [if_pos h]
  · intro h1 h2 h3
    simp only [pwnd_arb, hauth, if_true]
    rw [if_neg (not_or.mpr ⟨by omega, by omega⟩),
      if_pos (h3.imp (fun h => le_of_lt h) id)]

/-- C7 counterexample: a call with `loan_amount = 0`, `min_profit = 0`
and a one-item batch does not pass the amount validation: it is rejected
with `InvalidParams`, nothing is stored and the pool is never called,
because the source rejects `loan_amount <= 0`, not only negative
values. -/
theorem pwnd_arb_zero_loan_cex :
    pwnd_arb cEnv 1 2 3 0 [cInv] 0 gainFlash baseLedger
      = ⟨.error SoroswapError.InvalidParams, baseLedger, none, []⟩ :=
  rfl

/-- C7 (amended): `pwnd_arb`'s amount validation accepts every
`loan_amount > 0` with `min_profit ≥ 0` and rejects `loan_amount ≤ 0` or
`min_profit < 0`; in particular a call with `loan_amount ≥ 1`,
`min_profit ≥ 0` and a batch of 1 to 10 items passes validation, stores
the request and calls the lending pool on the stored ledger. -/
theorem pwnd_arb_amount_validation (env : ContractEnv)
    (caller blend_pool loan_asset : Address) (loan_amount : Int)
    (invocations : List Invocation) (min_profit : Int)
    (flashLoanCall : Ledger → Ledger) (l : Ledger)
    (hauth : env.auth caller = true) (hlen1 : 1 ≤ invocations.length)
    (hlen2 : invocations.length ≤ 10) :
    ((loan_amount ≤ 0 ∨ min_profit < 0) →
      pwnd_arb env caller blend_pool loan_asset loan_amount invocations
          min_profit flashLoanCall l
        = ⟨.error .InvalidParams, l, none, []⟩)
    ∧ (0 < loan_amount → 0 ≤ min_profit →
        (pwnd_arb env caller blend_pool loan_asset loan_amount invocations
            min_profit flashLoanCall l).poolArg
          = some (storeRequest invocations loan_asset loan_amount
              min_profit caller l)
        ∧ readRequest (storeRequest invocations loan_asset loan_amount
            min_profit caller l)
          = some (invocations, loan_asset, loan_amount, caller)) := by
  constructor
  · intro h
    simp only [pwnd_arb, hauth, if_true]
    rw [if_neg (not_or.mpr ⟨by omega, by omega⟩), if_pos h]
  · intro hamt hmp
    have hx := pwnd_arb_valid env caller blend_pool loan_asset loan_amount
      invocations min_profit flashLoanCall l hauth (by omega) (by omega)
      (by omega) (by omega)
    refine ⟨?_, rfl⟩
    rw [hx]
    dsimp only
    split
    · rfl
    · split <;> rfl

/-! ### Claim theorems about `pwnd_exec` -/

/-- The reference fail-soft run produces one outcome per batch item. -/
theorem softSpecRun_length (oracle : InvokeOracle) :
    ∀ (xs : List InvocationF) (bal : Balances),
      (softSpecRun oracle xs bal).1.length = xs.length := by
  intro xs
  induction xs with
  | nil => intro bal; rfl
  | cons item rest ih =>
    intro bal
    cases ho : oracle item.toInvocation bal with
    | ok p =>
      obtain ⟨v, bal'⟩ := p
      simp only [softSpecRun, ho]
      simp [ih bal']
    | error ev =>
      simp only [softSpecRun, ho]
      simp [ih bal]

/-- Whenever the fail-soft loop completes — whatever mix of tolerant and
intolerant items the batch holds — its outcome is the reference run's
outcome behind the accumulator: at each position the raw return value of
a successful item or the captured error value of a tolerated failure,
with the balances threaded sequentially. -/
theorem runSoft_some_eq (oracle : InvokeOracle) :
    ∀ (xs : List InvocationF) (bal : Balances) (acc res : List Val)
      (b : Balances),
      runSoft oracle xs bal acc = some (res, b) →
      res = acc ++ (softSpecRun oracle xs bal).1
      ∧ b = (softSpecRun oracle xs bal).2 := by
  intro xs
  induction xs with
  | nil =>
    intro bal acc res b h
    simp only [runSoft, Option.some.injEq, Prod.mk.injEq] at h
    simp [softSpecRun, ← h.1, ← h.2]
  | cons item rest ih =>
    intro bal acc res b h
    simp only [runSoft] at h
    by_cases hc : item.can_fail
    · rw [if_pos hc] at h
      cases ho : oracle item.toInvocation bal with
      | ok p =>
        obtain ⟨v, bal'⟩ := p
        rw [ho] at h
        obtain ⟨h1, h2⟩ := ih bal' (acc ++ [v]) res b h
        simp only [softSpecRun, ho]
        exact ⟨by simp [h1], h2⟩
      | error ev =>
        rw [ho] at h
        obtain ⟨h1, h2⟩ := ih bal (acc ++ [ev]) res b h
        simp only [softSpecRun, ho]
        exact ⟨by simp [h1], h2⟩
    · rw [if_neg hc] at h
      cases ho : oracle item.toInvocation bal with
      | ok p =>
        obtain ⟨v, bal'⟩ := p
        rw [ho] at h
        obtain ⟨h1, h2⟩ := ih bal' (acc ++ [v]) res b h
        simp only [softSpecRun, ho]
        exact ⟨by simp [h1], h2⟩
      | error ev =>
        rw [ho] at h
        exact absurd h (by simp)

/-- On a batch whose items are all failure-tolerant, the fail-soft loop
always completes and produces exactly the reference outcome list behind
the accumulator. -/
theorem runSoft_all_tolerant (oracle : InvokeOracle) :
    ∀ (xs : List InvocationF) (bal : Balances) (acc : List Val),
      (∀ i ∈ xs, i.can_fail = true) →
      runSoft oracle xs bal acc
        = some (acc ++ (softSpecRun oracle xs bal).1,
                (softSpecRun oracle xs bal).2) := by
  intro xs
  induction xs with
  | nil =>
    intro bal acc _
    simp [runSoft, softSpecRun]
  | cons item rest ih =>
    intro bal acc htol
    have hc : item.can_fail = true := htol item (by simp)
    have hrest : ∀ i ∈ rest, i.can_fail = true :=
      fun i hi => htol i (by simp [hi])
    cases ho : oracle item.toInvocation bal with
    | ok p =>
      obtain ⟨v, bal'⟩ := p
      simp only [runSoft, softSpecRun, hc, if_true, ho]
      rw [ih bal' (acc ++ [v]) hrest]
      simp
    | error ev =>
      simp only [runSoft, softSpecRun, hc, if_true, ho]
      rw [ih bal (acc ++ [ev]) hrest]
      simp

/-- C5: whenever `pwnd_exec` completes — exactly the runs in which every
item that fails has `tolerateFailure = true`, including mixed batches
whose intolerant items all succeed — the result list has exactly one
entry per batch item, holding at each position the item's raw return
value if it succeeded and its captured error value if it (tolerably)
failed, the items running sequentially in declaration order (the
reference run `softSpecRun`); moreover on an all-tolerant batch the run
always completes with that outcome. -/
theorem pwnd_exec_fail_soft (env : ContractEnv) (oracle : InvokeOracle)
    (caller : Address) (invocations : List InvocationF) (l : Ledger)
    (res : List Val) (b : Balances) :
    (pwnd_exec env oracle caller invocations l = some (res, b) →
      res.length = invocations.length
      ∧ res = (softSpecRun oracle invocations l.balance).1
      ∧ b = (softSpecRun oracle invocations l.balance).2)
    ∧ ((∀ i ∈ invocations, i.can_fail = true) → env.auth caller = true →
        pwnd_exec env oracle caller invocations l
          = some ((softSpecRun oracle invocations l.balance).1,
                  (softSpecRun oracle invocations l.balance).2)) := by
  constructor
  · intro h
    unfold pwnd_exec at h
    by_cases hauth : env.auth caller
    · rw [if_pos hauth] at h
      obtain ⟨h1, h2⟩ := runSoft_some_eq oracle invocations l.balance []
        res b h
      simp only [List.nil_append] at h1
      exact ⟨by rw [h1, softSpecRun_length], h1, h2⟩
    · rw [if_neg hauth] at h
      exact absurd h (by simp)
  · intro htol hauth
    simp only [pwnd_exec, hauth, if_true]
    rw [runSoft_all_tolerant oracle invocations l.balance [] htol]
    simp

/-! ### Witnesses at concrete inputs -/

/-- Witness for C2 at a concrete matching, fully succeeding callback. -/
theorem exec_op_solvency_check_witness :
    ((exec_op cEnv okOracle 1 3 10 0 armedLedger).result
        = .error SoroswapError.RepaymentFailed
      ↔ (runFailFast okOracle [cInv] armedLedger.balance).bal 3
          cEnv.contractAddress < 10 + 0)
    ∧ ((exec_op cEnv okOracle 1 3 10 0 armedLedger).result = .ok ()
      ∧ (exec_op cEnv okOracle 1 3 10 0 armedLedger).ledger.balance
          = (runFailFast okOracle [cInv] armedLedger.balance).bal) := by
  have h := exec_op_solvency_check cEnv okOracle 1 3 10 0 armedLedger
    [cInv] rfl rfl
  exact ⟨h.1, h.2 (by decide)⟩

/-- Witness for C3: missing request, mismatched token, and round-trip,
each at concrete inputs. -/
theorem exec_op_request_validation_witness :
    exec_op cEnv okOracle 1 3 10 0 baseLedger
      = ⟨.error SoroswapError.InvalidParams, baseLedger, []⟩
    ∧ exec_op cEnv okOracle 1 4 10 0 armedLedger
      = ⟨.error SoroswapError.InvalidParams, armedLedger, []⟩
    ∧ readRequest (storeRequest [cInv] 3 10 0 1 baseLedger)
      = some ([cInv], 3, 10, 1) :=
  ⟨(exec_op_request_validation cEnv okOracle 1 3 10 0 baseLedger
      baseLedger [cInv] 3 10 1 0).1 rfl,
   (exec_op_request_validation cEnv okOracle 1 4 10 0 armedLedger
      baseLedger [cInv] 3 10 1 0).2.1 rfl (Or.inl (by decide)),
   (exec_op_request_validation cEnv okOracle 1 3 10 0 baseLedger
      baseLedger [cInv] 3 10 1 0).2.2⟩

/-- Witness for C4 at a concrete three-item batch failing at its second
item. -/
theorem exec_op_fail_fast_order_witness :
    runFailFast failAt9 ([cInv] ++ badInv :: [tailInv])
        armedLedger3.balance
      = ⟨false, (runFailFast failAt9 [cInv] armedLedger3.balance).bal,
         [cInv] ++ [badInv]⟩
    ∧ (exec_op cEnv failAt9 1 3 10 0 armedLedger3).result
      = .error SoroswapError.SwapFailed
    ∧ (exec_op cEnv failAt9 1 3 10 0 armedLedger3).executed
      = [cInv] ++ [badInv] :=
  exec_op_fail_fast_order cEnv failAt9 1 3 10 0 armedLedger3 [cInv]
    [tailInv] badInv 5 rfl rfl rfl

/-- Witness for C5 at a concrete mixed three-item batch — an intolerant
item that succeeds, then a tolerant item that fails, then a tolerant item
that succeeds — and at an all-tolerant batch with a failing middle
item. -/
theorem pwnd_exec_fail_soft_witness :
    (([0, 5, 0] : List Val).length
        = ([softD, softB, softC] : List InvocationF).length
      ∧ ([0, 5, 0] : List Val)
        = (softSpecRun failAt9 [softD, softB, softC] baseLedger.balance).1
      ∧ baseBal
        = (softSpecRun failAt9 [softD, softB, softC] baseLedger.balance).2)
    ∧ pwnd_exec cEnv failAt9 1 [softA, softB, softC] baseLedger
      = some ((softSpecRun failAt9 [softA, softB, softC]
                 baseLedger.balance).1,
              (softSpecRun failAt9 [softA, softB, softC]
                 baseLedger.balance).2) := by
  have h1 := pwnd_exec_fail_soft cEnv failAt9 1 [softD, softB, softC]
    baseLedger [0, 5, 0] baseBal
  have h2 := pwnd_exec_fail_soft cEnv failAt9 1 [softA, softB, softC]
    baseLedger [0, 5, 0] baseBal
  exact ⟨h1.1 rfl, h2.2 (by decide) rfl⟩

/-- Witness for C1 at a concrete profitable run (initial balance 10,
final balance 60, minimum profit 40). -/
theorem pwnd_arb_profit_accounting_witness :
    (pwnd_arb cEnv 1 2 3 10 [cInv] 40 gainFlash baseLedger).result
      = .ok (netProfitOf cEnv gainFlash [cInv] 3 10 40 1 baseLedger)
    ∧ (pwnd_arb cEnv 1 2 3 10 [cInv] 40 gainFlash baseLedger).transfers
      = [(3, cEnv.contractAddress, 1,
          netProfitOf cEnv gainFlash [cInv] 3 10 40 1 baseLedger)] := by
  have h := pwnd_arb_profit_accounting cEnv 1 2 3 10 [cInv] 40 gainFlash
    baseLedger rfl (by decide) (by decide) (by decide) (by decide)
  have h2 := h.2 (by decide)
  exact ⟨h2.1, h2.2.1 (by decide)⟩

/-- Witness for C6: empty batch, then negative loan amount, each at
concrete inputs. -/
theorem pwnd_arb_input_validation_witness :
    pwnd_arb cEnv 1 2 3 10 [] 40 gainFlash baseLedger
      = ⟨.error SoroswapError.InvalidInvocations, baseLedger, none, []⟩
    ∧ pwnd_arb cEnv 1 2 3 (-5) [cInv] 40 gainFlash baseLedger
      = ⟨.error SoroswapError.InvalidParams, baseLedger, none, []⟩ :=
  ⟨(pwnd_arb_input_validation cEnv 1 2 3 10 [] 40 gainFlash baseLedger
      rfl).1 (Or.inl rfl),
   (pwnd_arb_input_validation cEnv 1 2 3 (-5) [cInv] 40 gainFlash
      baseLedger rfl).2 (by decide) (by decide) (Or.inl (by decide))⟩

/-- Witness for C7's amended theorem: zero loan amount rejected, positive
loan amount stored and handed to the pool, each at concrete inputs. -/
theorem pwnd_arb_amount_validation_witness :
    pwnd_arb cEnv 1 2 3 0 [cInv] 5 gainFlash baseLedger
      = ⟨.error SoroswapError.InvalidParams, baseLedger, none, []⟩
    ∧ ((pwnd_arb cEnv 1 2 3 10 [cInv] 0 gainFlash baseLedger).poolArg
        = some (storeRequest [cInv] 3 10 0 1 baseLedger)
      ∧ readRequest (storeRequest [cInv] 3 10 0 1 baseLedger)
        = some ([cInv], 3, 10, 1)) :=
  ⟨(pwnd_arb_amount_validation cEnv 1 2 3 0 [cInv] 5 gainFlash baseLedger
      rfl (by decide) (by decide)).1 (Or.inl (by decide)),
   (pwnd_arb_amount_validation cEnv 1 2 3 10 [cInv] 0 gainFlash
      baseLedger rfl (by decide) (by decide)).2 (by decide) (by decide)⟩

end StellarWorkshop
